import Mathlib

/-!
# sensu-jira-check: the new-ticket check of `main.go`

A shallow embedding of `checkArgs` and `checkFunc` (src/main.go) together with
the properties of the classification loop, of the default report template and
of the error paths.

Conventions of the embedding.

* Go `error` values are `Option Error` (`none` is `nil`); a call returning
  `(T, error)` is an `Except Error T`.
* The libraries the program links against (bitcask, go-jira, text/template,
  the Sensu SDK) are not part of the repository.  Their calls appear as
  explicit models (`Bitcask`, `Client`, `Template`, `GoTemplate`), each documented at
  its definition.
* Standard output is the string of everything written to it so far.
-/

namespace SensuJiraCheck

/-- Go `error` values are represented by their message. -/
abbrev Error := String

/-! ## Data model -/

/-- Modelled from the spec: the `jira.IssueFields` type of go-jira is not under
src/.  Only `Summary` is read by the program (main.go line 146 and the default
template). -/
structure IssueFields where
  Summary : String
deriving DecidableEq, Repr

/-- Modelled from the spec: the `jira.Issue` type of go-jira is not under src/.
The program reads `ID` (the dedup key, main.go lines 144 and 146), `Key` (the
default template, line 28) and `Fields.Summary`.  The embedding covers issues
that carry their fields, as the search delivers them. -/
structure Issue where
  ID : String
  Key : String
  Fields : IssueFields
deriving DecidableEq, Repr

/-! ## The seen-store (bitcask) -/

/-- One call made on the store handle. -/
inductive DbOp where
  | has (key : String)
  | put (key value : String)
  | close
deriving DecidableEq, Repr

/-- Modelled from the spec: the bitcask key/value store is not under src/.
An open handle carries the persisted records (most recent first, one per key),
the oracle deciding whether a `Put` fails (key or value too large, disk
errors, ...) given the current records, and the log of the calls made on the
handle. -/
structure Bitcask where
  entries : List (String × String)
  putError : List (String × String) → String → String → Option Error
  log : List DbOp

namespace Bitcask

/-- The value stored under a key (`db.Get`), if any. -/
def Get (db : Bitcask) (key : String) : Option String :=
  db.entries.lookup key

/-- The pure part of `db.Has`: is the key present? -/
def contains (db : Bitcask) (key : String) : Bool :=
  (db.entries.lookup key).isSome

/-- `db.Has(key)`: the answer and the handle with the call logged. -/
def Has (db : Bitcask) (key : String) : Bool × Bitcask :=
  (db.contains key, { db with log := db.log ++ [DbOp.has key] })

/-- `db.Put(key, value)`: when the oracle reports an error the records are left
as they were, otherwise the record for `key` is written (replacing an older one
with the same key). -/
def Put (db : Bitcask) (key value : String) : Bitcask × Option Error :=
  match db.putError db.entries key value with
  | some err => ({ db with log := db.log ++ [DbOp.put key value] }, some err)
  | none =>
    ({ db with
        entries := (key, value) :: db.entries.filter (fun kv => kv.1 != key)
        log := db.log ++ [DbOp.put key value] }, none)

/-- `db.Close()`. -/
def Close (db : Bitcask) : Bitcask :=
  { db with log := db.log ++ [DbOp.close] }

end Bitcask

/-! ## The classification loop (main.go lines 142-150) -/

/-- State of `checkFunc` when the loop of lines 143-150 is left: the store
handle, the local `newIssues`, and the error of the `Put` that made the loop
return early (`none` when the loop ran to its end). -/
structure LoopResult where
  db : Bitcask
  newIssues : List Issue
  err : Option Error

/-- The loop `for _, issue := range issues` of `checkFunc`, started with the
store handle `db` and the current value of `newIssues`. -/
def classifyLoop : List Issue → Bitcask → List Issue → LoopResult
  | [], db, newIssues => ⟨db, newIssues, none⟩
  | issue :: rest, db, newIssues =>
    match db.Has issue.ID with
    | (true, db1) => classifyLoop rest db1 newIssues
    | (false, db1) =>
      match db1.Put issue.ID issue.Fields.Summary with
      | (db2, some err) => ⟨db2, newIssues ++ [issue], some err⟩
      | (db2, none) => classifyLoop rest db2 (newIssues ++ [issue])

/-- The loop as `checkFunc` runs it: `var newIssues []jira.Issue` starts
empty. -/
def classify (issues : List Issue) (db : Bitcask) : LoopResult :=
  classifyLoop issues db []

/-- The claimed result of the classification, in the words of the
specification: the issues of `S`, in the order of their positions, whose ID is
not known (not a key of the store before the loop) and does not occur at an
earlier position of `S`. -/
def firstSightings (known : String → Bool) (S : List Issue) : List Issue :=
  (List.range S.length).filterMap fun i =>
    (S.get? i).filter fun x => !known x.ID && !((S.take i).map Issue.ID).contains x.ID

/-! ## The remote fetch (main.go lines 123-140) -/

/-- Modelled from the spec: the go-jira client is not under src/.  A client is
given by the answers of the remote service to the successive page requests of
a query: each request either fails or delivers the issues of one page, and the
end of the list is the exhaustion of the result set. -/
structure Client where
  pages : String → List (Except Error (List Issue))

/-- Inner loop of `SearchPages`: the callback is applied to the issues of one
page in order and the first error it returns stops the search. -/
def feedPage {σ : Type} (f : Issue → σ → σ × Option Error) :
    List Issue → σ → σ × Option Error
  | [], s => (s, none)
  | issue :: rest, s =>
    match f issue s with
    | (s1, some err) => (s1, some err)
    | (s1, none) => feedPage f rest s1

/-- Outer loop of `SearchPages`: pages are requested one after the other; a
failed request is returned as the error of the whole search. -/
def searchPagesLoop {σ : Type} (f : Issue → σ → σ × Option Error) :
    List (Except Error (List Issue)) → σ → σ × Option Error
  | [], s => (s, none)
  | Except.error err :: _, s => (s, some err)
  | Except.ok page :: more, s =>
    match feedPage f page s with
    | (s1, some err) => (s1, some err)
    | (s1, none) => searchPagesLoop f more s1

/-- `client.Issue.SearchPages(jql, nil, f)`; the state `σ` is what the callback
closes over. -/
def Client.SearchPages {σ : Type} (client : Client) (jql : String)
    (f : Issue → σ → σ × Option Error) (s : σ) : σ × Option Error :=
  searchPagesLoop f (client.pages jql) s

/-- The callback `checkFunc` passes to `SearchPages` (main.go lines 135-138):
it appends the issue to `issues` and returns the variable `err` of the
enclosing function, whose value at that time is the argument `err`. -/
def collect (err : Option Error) (issue : Issue) (issues : List Issue) :
    List Issue × Option Error :=
  (issues ++ [issue], err)

/-! ## Configuration and environment -/

/-- The fields of `HandlerConfig` (main.go lines 14-22) that the program
reads. -/
structure HandlerConfig where
  jiraUrl : String
  jiraUser : String
  jiraPassword : String
  jiraQuery : String
  outputTemplate : String
  knownIssues : String
deriving DecidableEq, Repr

/-- A parsed template, seen through `Execute`: for the data it is executed on,
the text it writes to the writer and the error it returns.  Text written before
an error stays written. -/
abbrev Template := List Issue → String × Option Error

/-- What `checkFunc` calls outside the repository: `bitcask.Open` on a path,
`jira.NewClient` for a user, password and URL, and `template.Parse` on a
template text. -/
structure World where
  bitcaskOpen : String → Except Error Bitcask
  jiraNewClient : String → String → String → Except Error Client
  templateParse : String → Except Error Template

/-- What one invocation of `checkFunc` leaves behind: the returned status and
error, the text written to standard output, the store handle after the deferred
`Close` (`none` when `Open` failed) and the value of the local `newIssues` at
the return. -/
structure Outcome where
  status : Int
  err : Option Error
  stdout : String
  db : Option Bitcask
  newIssues : List Issue

/-- The function `checkFunc` of main.go (lines 116-162). -/
def checkFunc (config : HandlerConfig) (w : World) : Outcome :=
  match w.bitcaskOpen config.knownIssues with
  | Except.error err => ⟨2, some err, "", none, []⟩
  | Except.ok db =>
    -- defer db.Close()
    match w.jiraNewClient config.jiraUser config.jiraPassword config.jiraUrl with
    | Except.error err => ⟨2, some err, "", some db.Close, []⟩
    | Except.ok client =>
      -- `err` is nil after the successful `NewClient`, and it is assigned again
      -- only when `SearchPages` has returned
      match client.SearchPages config.jiraQuery (collect none) [] with
      | (_, some err) => ⟨2, some err, "", some db.Close, []⟩
      | (issues, none) =>
        let r := classify issues db
        match r.err with
        | some err => ⟨2, some err, "", some r.db.Close, r.newIssues⟩
        | none =>
          match w.templateParse config.outputTemplate with
          | Except.error err => ⟨2, some err, "", some r.db.Close, r.newIssues⟩
          | Except.ok tmpl =>
            match tmpl r.newIssues with
            | (written, some err) => ⟨2, some err, written, some r.db.Close, r.newIssues⟩
            | (written, none) => ⟨0, none, written, some r.db.Close, r.newIssues⟩

/-- The function `checkArgs` of main.go (lines 89-114): `getenv` is `os.Getenv`
(the empty string for an unset variable); the result is the configuration after
the overrides together with the returned status and error. -/
def checkArgs (config : HandlerConfig) (getenv : String → String) :
    HandlerConfig × Int × Option Error :=
  let config := if getenv "JIRA_URL" != "" then
    { config with jiraUrl := getenv "JIRA_URL" } else config
  let config := if getenv "JIRA_USER" != "" then
    { config with jiraUser := getenv "JIRA_USER" } else config
  let config := if getenv "JIRA_PASSWORD" != "" then
    { config with jiraPassword := getenv "JIRA_PASSWORD" } else config
  if config.jiraUrl.utf8ByteSize == 0 then
    (config, 3, some "--jira-url or JIRA_URL environment variable is required")
  else if config.jiraUser.utf8ByteSize == 0 then
    (config, 3, some "--jira-user or JIRA_USER environment variable is required")
  else if config.jiraPassword.utf8ByteSize == 0 then
    (config, 3, some "--jira-password or JIRA_PASSWORD environment variable is required")
  else (config, 0, none)

/-! ## The default template and a fragment of Go's text/template -/

/-- The constant `outputTemplate` of main.go (lines 25-31), a raw string of
seven lines; `\x7b` and `\x7d` are the opening and the closing brace:

    {{ if ne (len .) 0 }}
    Found {{ (len .) }} new tickets
    {{range . -}}
    {{.Key}} {{.Fields.Summary}}
    {{ "" }}
    {{- end}}
    {{end}}
-/
def outputTemplate : String :=
  "\x7b\x7b if ne (len .) 0 \x7d\x7d\nFound \x7b\x7b (len .) \x7d\x7d new tickets\n\x7b\x7brange . -\x7d\x7d\n\x7b\x7b.Key\x7d\x7d \x7b\x7b.Fields.Summary\x7d\x7d\n\x7b\x7b \"\" \x7d\x7d\n\x7b\x7b- end\x7d\x7d\n\x7b\x7bend\x7d\x7d"

/-- The constant `knownIssues` of main.go (line 32). -/
def knownIssues : String := "/tmp/sensu-jira-check"

namespace GoTemplate

/-!
Modelled from the documentation of Go's `text/template` (the library is not
part of the repository): the fragment of the template language that the
default template is written in, namely text, the delimiters with their trim
markers, `if`/`else`/`end`, `range`/`else`/`end`, the functions `len` and `ne`,
the cursor `.`, field chains, parentheses, and string and decimal constants.
A template outside the fragment is rejected by this model, which says nothing
about what Go does with it.
-/

/-- The lexical items of an action, and the text between actions. -/
inductive Token where
  | text (s : String)
  | leftDelim
  | rightDelim
  | space
  | ident (s : String)
  | field (s : String)
  | dot
  | str (s : String)
  | num (n : Nat)
  | lparen
  | rparen
deriving DecidableEq, Repr

/-- White space as the trim markers understand it. -/
def isSpace (c : Char) : Bool :=
  c == ' ' || c == '\t' || c == '\r' || c == '\n'

/-- Letters, digits and the underscore (ASCII only in this fragment). -/
def isAlphaNumeric (c : Char) : Bool :=
  c == '_' || c.isAlpha || c.isDigit

/-- Does the input start with the closing delimiter? -/
def atRightDelim : List Char → Bool
  | '}' :: '}' :: _ => true
  | _ => false

/-- The lexer's `atTerminator`: may a word end here? -/
def atTerminator : List Char → Bool
  | [] => true
  | c :: rest =>
    isSpace c || c == '.' || c == ',' || c == '|' || c == ':' || c == ')' || c == '(' ||
      atRightDelim (c :: rest)

/-- The text item in front of an opening delimiter: `acc` holds the text in
reverse, and a left trim marker removes its trailing white space.  An empty
text gives no item. -/
def textItem (trim : Bool) (acc : List Char) : List Token :=
  let kept := if trim then acc.dropWhile isSpace else acc
  if kept.isEmpty then [] else [Token.text (String.mk kept.reverse)]

/-- Value of a run of decimal digits. -/
def digitsValue (ds : List Char) : Nat :=
  ds.foldl (fun n c => 10 * n + (c.toNat - '0'.toNat)) 0

/-- The lexer.  With `inside = false` it scans text up to the next `{{`
(`acc` is the text read so far, reversed); with `inside = true` it scans the
items of an action up to `}}`.  Every step consumes input, so a fuel of one
more than the length of the input is never exhausted. -/
def lex : Nat → Bool → List Char → List Char → Except Error (List Token)
  | 0, _, _, _ => Except.error "lexer out of fuel"
  | _ + 1, false, [], acc => Except.ok (textItem false acc)
  | fuel + 1, false, '{' :: '{' :: '-' :: c :: rest, acc =>
    if isSpace c then
      (lex fuel true rest []).map (fun ts => textItem true acc ++ Token.leftDelim :: ts)
    else
      (lex fuel true ('-' :: c :: rest) []).map
        (fun ts => textItem false acc ++ Token.leftDelim :: ts)
  | fuel + 1, false, '{' :: '{' :: rest, acc =>
    (lex fuel true rest []).map (fun ts => textItem false acc ++ Token.leftDelim :: ts)
  | fuel + 1, false, c :: rest, acc => lex fuel false rest (c :: acc)
  | _ + 1, true, [], _ => Except.error "unclosed action"
  | fuel + 1, true, c :: rest, _ =>
    if isSpace c && rest.head? == some '-' && atRightDelim (rest.drop 1) then
      (lex fuel false ((rest.drop 3).dropWhile isSpace) []).map (Token.rightDelim :: ·)
    else if atRightDelim (c :: rest) then
      (lex fuel false (rest.drop 1) []).map (Token.rightDelim :: ·)
    else if isSpace c then
      (lex fuel true rest []).map (Token.space :: ·)
    else if c == '(' then
      (lex fuel true rest []).map (Token.lparen :: ·)
    else if c == ')' then
      (lex fuel true rest []).map (Token.rparen :: ·)
    else if c == '"' then
      let body := rest.takeWhile (fun d => d != '"')
      let after := rest.dropWhile (fun d => d != '"')
      if body.contains '\\' || body.contains '\n' || after.isEmpty then
        Except.error "unsupported or unterminated quoted string"
      else
        (lex fuel true (after.drop 1) []).map (Token.str (String.mk body) :: ·)
    else if c == '.' then
      if atTerminator rest then
        (lex fuel true rest []).map (Token.dot :: ·)
      else
        let name := rest.takeWhile isAlphaNumeric
        let after := rest.dropWhile isAlphaNumeric
        if name.isEmpty || (rest.head?.map Char.isDigit == some true) ||
            !atTerminator after then
          Except.error "bad character in field"
        else
          (lex fuel true after []).map (Token.field (String.mk name) :: ·)
    else if c.isDigit then
      let ds := (c :: rest).takeWhile Char.isDigit
      let after := (c :: rest).dropWhile Char.isDigit
      if !atTerminator after || after.head? == some '.' then
        Except.error "bad number syntax"
      else
        (lex fuel true after []).map (Token.num (digitsValue ds) :: ·)
    else if c == '_' || c.isAlpha then
      let word := (c :: rest).takeWhile isAlphaNumeric
      let after := (c :: rest).dropWhile isAlphaNumeric
      if !atTerminator after then
        Except.error "bad character in identifier"
      else
        (lex fuel true after []).map (Token.ident (String.mk word) :: ·)
    else
      Except.error "unrecognized character in action"

/-- The items of a template text. -/
def tokenize (s : String) : Except Error (List Token) :=
  lex (s.length + 1) false s.data []

/-- The expressions of the fragment: a pipeline made of one command. -/
inductive Expr where
  | dot
  | field (e : Expr) (name : String)
  | str (s : String)
  | num (n : Nat)
  | len (e : Expr)
  | ne (a b : Expr)
deriving DecidableEq, Repr

/-- An operand of a command: a function name or a value. -/
inductive Operand where
  | fn (name : String)
  | val (e : Expr)
deriving DecidableEq, Repr

/-- A parsed template: a list of nodes, each node carrying the nodes that
follow it. -/
inductive Tmpl where
  | nil
  | text (s : String) (rest : Tmpl)
  | action (e : Expr) (rest : Tmpl)
  | cond (c : Expr) (thenT elseT rest : Tmpl)
  | range (e : Expr) (body elseT rest : Tmpl)
deriving DecidableEq, Repr

/-- How a node list ended. -/
inductive Stop where
  | eof
  | endTok
  | elseTok
deriving DecidableEq, Repr

/-- The parser's `nextNonSpace`. -/
def skipSpace : List Token → List Token
  | Token.space :: ts => skipSpace ts
  | ts => ts

/-- Fields written directly after a term extend it to a chain. -/
def chain (e : Expr) : List Token → Expr × List Token
  | Token.field n :: ts => chain (Expr.field e n) ts
  | ts => (e, ts)

/-- A command is a value alone, `len` with one value or `ne` with two. -/
def mkCommand : List Operand → Except Error Expr
  | [Operand.val e] => Except.ok e
  | [Operand.fn f, Operand.val a] =>
    if f == "len" then Except.ok (Expr.len a)
    else Except.error "command outside the fragment"
  | [Operand.fn f, Operand.val a, Operand.val b] =>
    if f == "ne" then Except.ok (Expr.ne a b)
    else Except.error "command outside the fragment"
  | [] => Except.error "missing value for command"
  | _ => Except.error "command outside the fragment"

/-- After an operand comes a space or the end of the pipeline. -/
def operandEnd : List Token → Bool
  | Token.space :: _ => true
  | Token.rightDelim :: _ => true
  | Token.rparen :: _ => true
  | _ => false

/-- The parser's `pipeline`, restricted to one command: the operands up to the
closing token `closer` (the right delimiter, or `)` for a parenthesized
pipeline); `acc` holds the operands read so far, in reverse. -/
def parseCommand : Nat → Token → List Token → List Operand →
    Except Error (Expr × List Token)
  | 0, _, _, _ => Except.error "parser out of fuel"
  | fuel + 1, closer, toks, acc =>
    match skipSpace toks with
    | [] => Except.error "unclosed action"
    | t :: rest =>
      if t = closer then
        (mkCommand acc.reverse).map (fun e => (e, rest))
      else
        let operand : Except Error (Operand × List Token) :=
          match t with
          | Token.ident w =>
            if w == "len" || w == "ne" then Except.ok (Operand.fn w, rest)
            else Except.error "function not defined in the fragment"
          | Token.field n =>
            let (e, rest1) := chain (Expr.field Expr.dot n) rest
            Except.ok (Operand.val e, rest1)
          | Token.dot => Except.ok (Operand.val Expr.dot, rest)
          | Token.str s => Except.ok (Operand.val (Expr.str s), rest)
          | Token.num n => Except.ok (Operand.val (Expr.num n), rest)
          | Token.lparen =>
            (parseCommand fuel Token.rparen rest []).map
              (fun (e, rest1) => let (e1, rest2) := chain e rest1; (Operand.val e1, rest2))
          | _ => Except.error "unexpected token in command"
        match operand with
        | Except.error err => Except.error err
        | Except.ok (op, rest1) =>
          if operandEnd rest1 then parseCommand fuel closer rest1 (op :: acc)
          else Except.error "unexpected token after operand"

/-- The closing delimiter of `{{end}}` and `{{else}}`. -/
def expectRightDelim (toks : List Token) : Except Error (List Token) :=
  match skipSpace toks with
  | Token.rightDelim :: rest => Except.ok rest
  | _ => Except.error "unexpected token, expected the closing delimiter"

/-- The parser's `itemList`: the nodes up to the end of the input or up to an
`{{end}}` or `{{else}}` action. -/
def parseList : Nat → List Token → Except Error (Tmpl × Stop × List Token)
  | 0, _ => Except.error "parser out of fuel"
  | _ + 1, [] => Except.ok (Tmpl.nil, Stop.eof, [])
  | fuel + 1, Token.text s :: rest =>
    (parseList fuel rest).map (fun (t, stop, r) => (Tmpl.text s t, stop, r))
  | fuel + 1, Token.leftDelim :: rest =>
    match skipSpace rest with
    | Token.ident w :: r =>
      if w == "end" then
        (expectRightDelim r).map (fun r1 => (Tmpl.nil, Stop.endTok, r1))
      else if w == "else" then
        (expectRightDelim r).map (fun r1 => (Tmpl.nil, Stop.elseTok, r1))
      else if w == "if" || w == "range" then
        let mk := fun (c : Expr) (a b rest : Tmpl) =>
          if w == "if" then Tmpl.cond c a b rest else Tmpl.range c a b rest
        match parseCommand fuel Token.rightDelim r [] with
        | Except.error err => Except.error err
        | Except.ok (c, r1) =>
          match parseList fuel r1 with
          | Except.error err => Except.error err
          | Except.ok (_, Stop.eof, _) => Except.error "unexpected EOF"
          | Except.ok (a, Stop.endTok, r2) =>
            (parseList fuel r2).map (fun (t, stop, r3) => (mk c a Tmpl.nil t, stop, r3))
          | Except.ok (a, Stop.elseTok, r2) =>
            match parseList fuel r2 with
            | Except.error err => Except.error err
            | Except.ok (b, Stop.endTok, r3) =>
              (parseList fuel r3).map (fun (t, stop, r4) => (mk c a b t, stop, r4))
            | Except.ok _ => Except.error "expected end"
      else
        match parseCommand fuel Token.rightDelim (Token.ident w :: r) [] with
        | Except.error err => Except.error err
        | Except.ok (e, r1) =>
          (parseList fuel r1).map (fun (t, stop, r2) => (Tmpl.action e t, stop, r2))
    | toks =>
      match parseCommand fuel Token.rightDelim toks [] with
      | Except.error err => Except.error err
      | Except.ok (e, r1) =>
        (parseList fuel r1).map (fun (t, stop, r2) => (Tmpl.action e t, stop, r2))
  | _ + 1, _ :: _ => Except.error "unexpected token"

/-- The function `Parse` on the fragment: the template text to its node list. -/
def parse (s : String) : Except Error Tmpl :=
  match tokenize s with
  | Except.error err => Except.error err
  | Except.ok toks =>
    match parseList (toks.length + 1) toks with
    | Except.error err => Except.error err
    | Except.ok (t, Stop.eof, _) => Except.ok t
    | Except.ok _ => Except.error "unexpected end or else"

/-- The values an expression of the fragment can take on the data `checkFunc`
passes (a slice of issues). -/
inductive Value where
  | issues (l : List Issue)
  | issue (i : Issue)
  | fields (f : IssueFields)
  | str (s : String)
  | int (n : Nat)
  | bool (b : Bool)
deriving DecidableEq, Repr

/-- Field access: an issue has `ID`, `Key` and `Fields`, the fields object has
`Summary`; no other value has fields. -/
def getField (name : String) : Value → Except Error Value
  | Value.issue i =>
    if name == "ID" then Except.ok (Value.str i.ID)
    else if name == "Key" then Except.ok (Value.str i.Key)
    else if name == "Fields" then Except.ok (Value.fields i.Fields)
    else Except.error ("can't evaluate field " ++ name ++ " in type jira.Issue")
  | Value.fields f =>
    if name == "Summary" then Except.ok (Value.str f.Summary)
    else Except.error ("can't evaluate field " ++ name ++ " in type jira.IssueFields")
  | Value.issues _ => Except.error ("can't evaluate field " ++ name ++ " in type []jira.Issue")
  | Value.str _ => Except.error ("can't evaluate field " ++ name ++ " in type string")
  | Value.int _ => Except.error ("can't evaluate field " ++ name ++ " in type int")
  | Value.bool _ => Except.error ("can't evaluate field " ++ name ++ " in type bool")

/-- Evaluation of an expression with the cursor `dot`. -/
def eval : Expr → Value → Except Error Value
  | Expr.dot, dot => Except.ok dot
  | Expr.field e name, dot =>
    match eval e dot with
    | Except.error err => Except.error err
    | Except.ok v => getField name v
  | Expr.str s, _ => Except.ok (Value.str s)
  | Expr.num n, _ => Except.ok (Value.int n)
  | Expr.len e, dot =>
    match eval e dot with
    | Except.error err => Except.error err
    | Except.ok (Value.issues l) => Except.ok (Value.int l.length)
    | Except.ok (Value.str s) => Except.ok (Value.int s.utf8ByteSize)
    | Except.ok _ => Except.error "error calling len: len of type without length"
  | Expr.ne a b, dot =>
    match eval a dot, eval b dot with
    | Except.error err, _ => Except.error err
    | _, Except.error err => Except.error err
    | Except.ok (Value.int m), Except.ok (Value.int n) => Except.ok (Value.bool (m != n))
    | Except.ok (Value.str s), Except.ok (Value.str t) => Except.ok (Value.bool (s != t))
    | Except.ok (Value.bool p), Except.ok (Value.bool q) => Except.ok (Value.bool (p != q))
    | Except.ok _, Except.ok _ => Except.error "error calling ne: incompatible types for comparison"

/-- The text an action prints for a value.  Printing a struct or a slice is
outside the fragment. -/
def printValue : Value → Except Error String
  | Value.str s => Except.ok s
  | Value.int n => Except.ok (Nat.repr n)
  | Value.bool b => Except.ok (if b then "true" else "false")
  | _ => Except.error "printing this value is outside the fragment"

/-- Truth of a value for `if`: false, 0, the empty string and the empty slice
are false. -/
def truth : Value → Bool
  | Value.bool b => b
  | Value.int n => n != 0
  | Value.str s => s != ""
  | Value.issues l => !l.isEmpty
  | _ => true

/-- The loop of `range` over a slice of issues: `body` is the execution of the
loop body with the cursor set to the element; the first error stops the loop. -/
def execRange (body : Value → String → String × Option Error) :
    List Issue → String → String × Option Error
  | [], out => (out, none)
  | x :: xs, out =>
    match body (Value.issue x) out with
    | (out1, some err) => (out1, some err)
    | (out1, none) => execRange body xs out1

/-- Execution of a node list with the cursor `dot`: `out` is the text written
so far, and the result is the text written when the execution ends together
with the error that ended it, if any. -/
def exec : Tmpl → Value → String → String × Option Error
  | Tmpl.nil, _, out => (out, none)
  | Tmpl.text s rest, dot, out => exec rest dot (out ++ s)
  | Tmpl.action e rest, dot, out =>
    match (eval e dot).bind printValue with
    | Except.error err => (out, some err)
    | Except.ok s => exec rest dot (out ++ s)
  | Tmpl.cond c thenT elseT rest, dot, out =>
    match eval c dot with
    | Except.error err => (out, some err)
    | Except.ok v =>
      match (if truth v then exec thenT dot out else exec elseT dot out) with
      | (out1, some err) => (out1, some err)
      | (out1, none) => exec rest dot out1
  | Tmpl.range e body elseT rest, dot, out =>
    match eval e dot with
    | Except.error err => (out, some err)
    | Except.ok (Value.issues l) =>
      match (if l.isEmpty then exec elseT dot out
             else execRange (fun x o => exec body x o) l out) with
      | (out1, some err) => (out1, some err)
      | (out1, none) => exec rest dot out1
    | Except.ok _ => (out, some "range can't iterate over this value")

/-- The function `template.Parse` followed by `Execute` on standard output, for
the fragment. -/
def Parse (text : String) : Except Error Template :=
  (parse text).map (fun t issues => exec t (Value.issues issues) "")

end GoTemplate

/-- Lines 152-159 of `checkFunc` on their own, with the fragment of
`text/template` above: the text written to standard output and the error
returned, for a template text and the new issues. -/
def render (templateText : String) (newIssues : List Issue) : String × Option Error :=
  match GoTemplate.Parse templateText with
  | Except.error err => ("", some err)
  | Except.ok tmpl => tmpl newIssues

/-- No step of `checkFunc` fails: the store opens, the client is created, the
search delivers the issues, no `Put` of the loop fails, and the template parses
and executes without error. -/
def AllStepsSucceed (config : HandlerConfig) (w : World) : Prop :=
  ∃ (db : Bitcask) (client : Client) (issues : List Issue) (tmpl : Template) (written : String),
    w.bitcaskOpen config.knownIssues = Except.ok db ∧
    w.jiraNewClient config.jiraUser config.jiraPassword config.jiraUrl = Except.ok client ∧
    client.SearchPages config.jiraQuery (collect none) [] = (issues, none) ∧
    (classify issues db).err = none ∧
    w.templateParse config.outputTemplate = Except.ok tmpl ∧
    tmpl (classify issues db).newIssues = (written, none)

/-- The step that fails is the execution of the template: every step before it
succeeds, and `Execute` returns the error `err` after having written
`written`. -/
def ExecuteFails (config : HandlerConfig) (w : World) (written : String) (err : Error) : Prop :=
  ∃ (db : Bitcask) (client : Client) (issues : List Issue) (tmpl : Template),
    w.bitcaskOpen config.knownIssues = Except.ok db ∧
    w.jiraNewClient config.jiraUser config.jiraPassword config.jiraUrl = Except.ok client ∧
    client.SearchPages config.jiraQuery (collect none) [] = (issues, none) ∧
    (classify issues db).err = none ∧
    w.templateParse config.outputTemplate = Except.ok tmpl ∧
    tmpl (classify issues db).newIssues = (written, some err)

/-- The node list of line 28 of the default template, the body of its
`range`: the right trim marker of `{{range . -}}` removes the line break after
it, and the left trim marker of `{{- end}}` the line break after `{{ "" }}`. -/
def defaultLine : GoTemplate.Tmpl :=
  open GoTemplate in
  Tmpl.action (Expr.field Expr.dot "Key") (Tmpl.text " "
    (Tmpl.action (Expr.field (Expr.field Expr.dot "Fields") "Summary")
      (Tmpl.text "\n" (Tmpl.action (Expr.str "") Tmpl.nil))))

/-- The node list of the default template: line 25 opens the `if` whose body
reaches to the `{{end}}` of line 31. -/
def defaultTmpl : GoTemplate.Tmpl :=
  open GoTemplate in
  Tmpl.cond (Expr.ne (Expr.len Expr.dot) (Expr.num 0))
    (Tmpl.text "\nFound " (Tmpl.action (Expr.len Expr.dot) (Tmpl.text " new tickets\n"
      (Tmpl.range Expr.dot defaultLine Tmpl.nil (Tmpl.text "\n" Tmpl.nil)))))
    Tmpl.nil Tmpl.nil

/-! ## Sample data -/

/-- A store handle without records on which every `Put` succeeds. -/
def emptyStore : Bitcask := ⟨[], fun _ _ _ => none, []⟩

/-- A store handle that already holds the issue with ID 10002, on which every
`Put` succeeds. -/
def sampleStore : Bitcask := ⟨[("10002", "old summary")], fun _ _ _ => none, []⟩

/-- A fetched sequence: a new issue, a known issue whose summary has changed, a
second occurrence of the first ID, and another new issue. -/
def sampleIssues : List Issue :=
  [⟨"10001", "A-1", ⟨"fix bug"⟩⟩, ⟨"10002", "A-2", ⟨"add test"⟩⟩,
   ⟨"10001", "A-1", ⟨"fix bug (edited)"⟩⟩, ⟨"10003", "A-3", ⟨"write docs"⟩⟩]

/-- A configuration with the default template and store path. -/
def sampleConfig : HandlerConfig :=
  ⟨"https://jira.example.org", "probe", "secret", "project = A", outputTemplate, knownIssues⟩

/-- The sample configuration with the template
`Found {{len .}} new tickets\n{{range .}}{{.Key.Summary}}{{end}}`, whose
execution fails inside the `range`: `.Key` is a string and has no field
`Summary`. -/
def brokenConfig : HandlerConfig :=
  { sampleConfig with
    outputTemplate := "Found \x7b\x7blen .\x7d\x7d new tickets\n\x7b\x7brange .\x7d\x7d\x7b\x7b.Key.Summary\x7d\x7d\x7b\x7bend\x7d\x7d" }

/-- A world in which the store opens on `store`, the client is created and the
search answers with the given pages, and templates are those of the fragment. -/
def worldWith (store : Bitcask) (pages : List (Except Error (List Issue))) : World :=
  ⟨fun _ => Except.ok store, fun _ _ _ => Except.ok ⟨fun _ => pages⟩, GoTemplate.Parse⟩

/-- The sample sequence delivered in two pages. -/
def samplePages : List (Except Error (List Issue)) :=
  [Except.ok (sampleIssues.take 2), Except.ok (sampleIssues.drop 2)]

/-- Three page requests of which the second fails. -/
def failingPages : List (Except Error (List Issue)) :=
  [Except.ok (sampleIssues.take 2), Except.error "page 2: connection reset",
   Except.ok (sampleIssues.drop 2)]

/-- The environment of `checkArgs` in which only `JIRA_URL` is set. -/
def urlOnlyEnv (name : String) : String :=
  if name == "JIRA_URL" then "https://jira.example.org" else ""

/-- The effective value of a setting in `checkArgs`: a non-empty environment
value replaces the configured one. -/
def effective (configured envValue : String) : String :=
  if envValue = "" then configured else envValue

/-! ## Lemmas on the store -/

set_option maxRecDepth 100000

theorem lookup_filter_ne (es : List (String × String)) (k key : String) (h : k ≠ key) :
    (es.filter (fun kv => kv.1 != key)).lookup k = es.lookup k := by
  induction es with
  | nil => rfl
  | cons e es ih =>
    obtain ⟨a, b⟩ := e
    by_cases hak : a = key
    · subst hak
      have hk : (k == a) = false := by simpa using h
      simp [List.filter_cons, List.lookup_cons, hk, ih]
    · have hne : (a != key) = true := by simpa using hak
      simp [List.filter_cons, hne, List.lookup_cons, ih]

theorem Bitcask.contains_Has (db : Bitcask) (key : String) :
    (db.Has key).2.contains = db.contains := rfl

theorem Bitcask.Get_Has (db : Bitcask) (key : String) :
    (db.Has key).2.Get = db.Get := rfl

theorem Bitcask.Get_Put (db : Bitcask) (key value k : String)
    (h : db.putError db.entries key value = none) :
    (db.Put key value).1.Get k = if k = key then some value else db.Get k := by
  unfold Bitcask.Put Bitcask.Get
  rw [h]
  by_cases hk : k = key
  · subst hk
    simp [List.lookup_cons]
  · have hb : (k == key) = false := by simpa using hk
    simp [List.lookup_cons, hb, hk, lookup_filter_ne _ _ _ hk]

theorem Bitcask.contains_Put (db : Bitcask) (key value : String)
    (h : db.putError db.entries key value = none) :
    (db.Put key value).1.contains = fun k => db.contains k || k == key := by
  funext k
  have := Bitcask.Get_Put db key value k h
  unfold Bitcask.contains
  unfold Bitcask.Get at this
  rw [this]
  by_cases hk : k = key
  · simp [hk]
  · simp [hk]

theorem Bitcask.Put_err (db : Bitcask) (key value : String) (err : Error)
    (h : db.putError db.entries key value = some err) :
    db.Put key value = ({ db with log := db.log ++ [DbOp.put key value] }, some err) := by
  unfold Bitcask.Put
  rw [h]

/-! ## One iteration of the classification loop -/

theorem classifyLoop_known (x : Issue) (rest : List Issue) (db : Bitcask) (acc : List Issue)
    (h : db.contains x.ID = true) :
    classifyLoop (x :: rest) db acc = classifyLoop rest (db.Has x.ID).2 acc := by
  simp [classifyLoop, Bitcask.Has, h]

theorem classifyLoop_new (x : Issue) (rest : List Issue) (db : Bitcask) (acc : List Issue)
    (h : db.contains x.ID = false)
    (hp : db.putError db.entries x.ID x.Fields.Summary = none) :
    classifyLoop (x :: rest) db acc =
      classifyLoop rest ((db.Has x.ID).2.Put x.ID x.Fields.Summary).1 (acc ++ [x]) := by
  simp [classifyLoop, Bitcask.Has, Bitcask.Put, h, hp]

theorem classifyLoop_failed (x : Issue) (rest : List Issue) (db : Bitcask) (acc : List Issue)
    (err : Error) (h : db.contains x.ID = false)
    (hp : db.putError db.entries x.ID x.Fields.Summary = some err) :
    classifyLoop (x :: rest) db acc =
      ⟨((db.Has x.ID).2.Put x.ID x.Fields.Summary).1, acc ++ [x], some err⟩ := by
  simp [classifyLoop, Bitcask.Has, Bitcask.Put, h, hp]

/-! ## The specification function, one position at a time -/

theorem firstSightings_nil (known : String → Bool) : firstSightings known [] = [] := rfl

theorem firstSightings_cons (known : String → Bool) (x : Issue) (rest : List Issue) :
    firstSightings known (x :: rest) =
      (if known x.ID then [] else [x]) ++
        firstSightings (fun k => known k || k == x.ID) rest := by
  unfold firstSightings
  rw [List.length_cons, List.range_succ_eq_map, List.filterMap_cons, List.filterMap_map]
  have hrest : List.filterMap ((fun i => Option.filter
        (fun y => !known y.ID && !(List.map Issue.ID (List.take i (x :: rest))).contains y.ID)
        ((x :: rest).get? i)) ∘ Nat.succ) (List.range rest.length) =
      List.filterMap (fun i => Option.filter
        (fun y => !(known y.ID || y.ID == x.ID) &&
          !(List.map Issue.ID (List.take i rest)).contains y.ID)
        (rest.get? i)) (List.range rest.length) := by
    apply List.filterMap_congr
    intro i _
    simp only [Function.comp, Nat.succ_eq_add_one, List.get?_cons_succ, List.take_succ_cons,
      List.map_cons, List.contains_cons]
    cases rest.get? i with
    | none => rfl
    | some y =>
      have hb : ∀ a b c : Bool, (!a && !(b || c)) = (!(a || b) && !c) := by decide
      simp only [Option.filter, hb]
  rw [hrest]
  cases hk : known x.ID <;> simp [Option.filter, hk]

theorem firstSightings_absorb (known : String → Bool) (key : String) (S : List Issue)
    (h : known key = true) :
    firstSightings (fun k => known k || k == key) S = firstSightings known S := by
  have : (fun k => known k || k == key) = known := by
    funext k
    by_cases hk : k = key
    · subst hk; simp [h]
    · simp [hk]
  rw [this]

/-! ## The classification loop as a whole -/

theorem classifyLoop_newIssues (S : List Issue) :
    ∀ (db : Bitcask) (acc : List Issue), (classifyLoop S db acc).err = none →
      (classifyLoop S db acc).newIssues = acc ++ firstSightings db.contains S := by
  induction S with
  | nil => intro db acc _; simp [classifyLoop, firstSightings_nil]
  | cons x rest ih =>
    intro db acc h
    cases hc : db.contains x.ID with
    | true =>
      rw [classifyLoop_known x rest db acc hc] at h ⊢
      rw [ih _ _ h, firstSightings_cons, hc, Bitcask.contains_Has,
        firstSightings_absorb _ _ _ hc]
      simp
    | false =>
      cases hp : db.putError db.entries x.ID x.Fields.Summary with
      | some err =>
        rw [classifyLoop_failed x rest db acc err hc hp] at h
        simp at h
      | none =>
        rw [classifyLoop_new x rest db acc hc hp] at h ⊢
        rw [ih _ _ h, firstSightings_cons, hc,
          Bitcask.contains_Put (db.Has x.ID).2 x.ID x.Fields.Summary hp, Bitcask.contains_Has]
        simp

theorem classifyLoop_Get_preserved (S : List Issue) :
    ∀ (db : Bitcask) (acc : List Issue) (k v : String), db.Get k = some v →
      (classifyLoop S db acc).db.Get k = some v := by
  induction S with
  | nil => intro db acc k v h; simpa [classifyLoop] using h
  | cons x rest ih =>
    intro db acc k v h
    cases hc : db.contains x.ID with
    | true =>
      rw [classifyLoop_known x rest db acc hc]
      exact ih _ _ k v (by rw [Bitcask.Get_Has]; exact h)
    | false =>
      have hk : k ≠ x.ID := by
        intro hk
        subst hk
        unfold Bitcask.contains at hc
        unfold Bitcask.Get at h
        rw [h] at hc
        simp at hc
      cases hp : db.putError db.entries x.ID x.Fields.Summary with
      | some err =>
        rw [classifyLoop_failed x rest db acc err hc hp]
        have := Bitcask.Put_err (db.Has x.ID).2 x.ID x.Fields.Summary err hp
        rw [this]
        exact h
      | none =>
        rw [classifyLoop_new x rest db acc hc hp]
        apply ih
        rw [Bitcask.Get_Put (db.Has x.ID).2 x.ID x.Fields.Summary k hp, if_neg hk, Bitcask.Get_Has]
        exact h

theorem classifyLoop_Get_new (S : List Issue) :
    ∀ (db : Bitcask) (acc : List Issue) (k : String), (classifyLoop S db acc).err = none →
      db.Get k = none →
      (classifyLoop S db acc).db.Get k =
        (S.find? (fun i => i.ID == k)).map (fun i => i.Fields.Summary) := by
  induction S with
  | nil => intro db acc k _ h; simpa [classifyLoop] using h
  | cons x rest ih =>
    intro db acc k herr h
    cases hc : db.contains x.ID with
    | true =>
      have hk : (x.ID == k) = false := by
        have : x.ID ≠ k := by
          intro hk
          subst hk
          unfold Bitcask.contains at hc
          unfold Bitcask.Get at h
          rw [h] at hc
          simp at hc
        simpa using this
      rw [classifyLoop_known x rest db acc hc] at herr ⊢
      rw [List.find?_cons, hk]
      exact ih _ _ k herr (by rw [Bitcask.Get_Has]; exact h)
    | false =>
      cases hp : db.putError db.entries x.ID x.Fields.Summary with
      | some err =>
        rw [classifyLoop_failed x rest db acc err hc hp] at herr
        simp at herr
      | none =>
        rw [classifyLoop_new x rest db acc hc hp] at herr ⊢
        by_cases hk : k = x.ID
        · subst hk
          rw [List.find?_cons]
          simp only [beq_self_eq_true, Option.map_some']
          apply classifyLoop_Get_preserved
          rw [Bitcask.Get_Put (db.Has x.ID).2 x.ID x.Fields.Summary x.ID hp, if_pos rfl]
        · have hb : (x.ID == k) = false := by
            simpa using (fun h' : x.ID = k => hk h'.symm)
          rw [List.find?_cons, hb]
          apply ih _ _ k herr
          rw [Bitcask.Get_Put (db.Has x.ID).2 x.ID x.Fields.Summary k hp, if_neg hk, Bitcask.Get_Has]
          exact h

theorem classifyLoop_mem (S : List Issue) :
    ∀ (db : Bitcask) (acc : List Issue) (y : Issue), y ∈ (classifyLoop S db acc).newIssues →
      y ∈ acc ∨ (y ∈ S ∧ db.contains y.ID = false) := by
  induction S with
  | nil => intro db acc y h; left; simpa [classifyLoop] using h
  | cons x rest ih =>
    intro db acc y h
    cases hc : db.contains x.ID with
    | true =>
      rw [classifyLoop_known x rest db acc hc] at h
      rcases ih _ _ y h with h1 | ⟨h1, h2⟩
      · exact Or.inl h1
      · exact Or.inr ⟨List.mem_cons_of_mem _ h1, by rw [Bitcask.contains_Has] at h2; exact h2⟩
    | false =>
      cases hp : db.putError db.entries x.ID x.Fields.Summary with
      | some err =>
        rw [classifyLoop_failed x rest db acc err hc hp] at h
        rcases List.mem_append.mp h with h1 | h1
        · exact Or.inl h1
        · have : y = x := by simpa using h1
          subst this
          exact Or.inr ⟨List.mem_cons_self _ _, hc⟩
      | none =>
        rw [classifyLoop_new x rest db acc hc hp] at h
        rcases ih _ _ y h with h1 | ⟨h1, h2⟩
        · rcases List.mem_append.mp h1 with h3 | h3
          · exact Or.inl h3
          · have : y = x := by simpa using h3
            subst this
            exact Or.inr ⟨List.mem_cons_self _ _, hc⟩
        · rw [Bitcask.contains_Put (db.Has x.ID).2 x.ID x.Fields.Summary hp,
            Bitcask.contains_Has] at h2
          have h3 : db.contains y.ID = false := by
            cases hd : db.contains y.ID
            · rfl
            · simp [hd] at h2
          exact Or.inr ⟨List.mem_cons_of_mem _ h1, h3⟩

theorem classifyLoop_all_known (S : List Issue) :
    ∀ (db : Bitcask) (acc : List Issue), (∀ x ∈ S, db.contains x.ID = true) →
      (classifyLoop S db acc).newIssues = acc ∧ (classifyLoop S db acc).err = none ∧
        (classifyLoop S db acc).db.entries = db.entries := by
  induction S with
  | nil => intro db acc _; simp [classifyLoop]
  | cons x rest ih =>
    intro db acc h
    have hc := h x (List.mem_cons_self _ _)
    rw [classifyLoop_known x rest db acc hc]
    exact ih (db.Has x.ID).2 acc (fun y hy => h y (List.mem_cons_of_mem _ hy))

theorem classifyLoop_length_le (S : List Issue) :
    ∀ (db : Bitcask) (acc : List Issue),
      acc.length ≤ (classifyLoop S db acc).newIssues.length := by
  induction S with
  | nil => intro db acc; simp [classifyLoop]
  | cons x rest ih =>
    intro db acc
    cases hc : db.contains x.ID with
    | true =>
      rw [classifyLoop_known x rest db acc hc]
      exact ih _ _
    | false =>
      cases hp : db.putError db.entries x.ID x.Fields.Summary with
      | some err =>
        rw [classifyLoop_failed x rest db acc err hc hp]
        simp
      | none =>
        rw [classifyLoop_new x rest db acc hc hp]
        have := ih ((db.Has x.ID).2.Put x.ID x.Fields.Summary).1 (acc ++ [x])
        simp at this
        omega

theorem classifyLoop_length_lt (S : List Issue) :
    ∀ (db : Bitcask) (acc : List Issue), (∃ x ∈ S, db.contains x.ID = false) →
      acc.length < (classifyLoop S db acc).newIssues.length := by
  induction S with
  | nil => intro db acc h; obtain ⟨x, hx, _⟩ := h; simp at hx
  | cons x rest ih =>
    intro db acc h
    cases hc : db.contains x.ID with
    | true =>
      rw [classifyLoop_known x rest db acc hc]
      apply ih
      obtain ⟨y, hy, hyc⟩ := h
      rcases List.mem_cons.mp hy with h1 | h1
      · subst h1; rw [hc] at hyc; simp at hyc
      · exact ⟨y, h1, hyc⟩
    | false =>
      cases hp : db.putError db.entries x.ID x.Fields.Summary with
      | some err =>
        rw [classifyLoop_failed x rest db acc err hc hp]
        simp
      | none =>
        rw [classifyLoop_new x rest db acc hc hp]
        have := classifyLoop_length_le rest ((db.Has x.ID).2.Put x.ID x.Fields.Summary).1
          (acc ++ [x])
        simp at this
        omega

theorem classifyLoop_contains_after (S : List Issue) (db : Bitcask) (acc : List Issue)
    (herr : (classifyLoop S db acc).err = none) (x : Issue) (hx : x ∈ S) :
    (classifyLoop S db acc).db.contains x.ID = true := by
  unfold Bitcask.contains
  cases hg : db.Get x.ID with
  | some v =>
    have := classifyLoop_Get_preserved S db acc x.ID v hg
    unfold Bitcask.Get at this
    rw [this]; rfl
  | none =>
    have := classifyLoop_Get_new S db acc x.ID herr hg
    unfold Bitcask.Get at this
    rw [this]
    cases hf : List.find? (fun i => i.ID == x.ID) S with
    | some y => rfl
    | none =>
      have := List.find?_eq_none.mp hf x hx
      simp at this

theorem classifyLoop_log (S : List Issue) :
    ∀ (db : Bitcask) (acc : List Issue), ∃ ops : List DbOp,
      (classifyLoop S db acc).db.log = db.log ++ ops ∧
        ∀ k v, DbOp.put k v ∈ ops → db.contains k = false := by
  induction S with
  | nil => intro db acc; exact ⟨[], by simp [classifyLoop], by simp⟩
  | cons x rest ih =>
    intro db acc
    cases hc : db.contains x.ID with
    | true =>
      rw [classifyLoop_known x rest db acc hc]
      obtain ⟨ops, h1, h2⟩ := ih (db.Has x.ID).2 acc
      refine ⟨DbOp.has x.ID :: ops, ?_, ?_⟩
      · rw [h1]; simp [Bitcask.Has]
      · intro k v hkv
        rcases List.mem_cons.mp hkv with h3 | h3
        · cases h3
        · exact h2 k v h3
    | false =>
      cases hp : db.putError db.entries x.ID x.Fields.Summary with
      | some err =>
        rw [classifyLoop_failed x rest db acc err hc hp]
        rw [Bitcask.Put_err (db.Has x.ID).2 x.ID x.Fields.Summary err hp]
        refine ⟨[DbOp.has x.ID, DbOp.put x.ID x.Fields.Summary], by simp [Bitcask.Has], ?_⟩
        intro k v hkv
        simp at hkv
        rw [hkv.1]; exact hc
      | none =>
        rw [classifyLoop_new x rest db acc hc hp]
        obtain ⟨ops, h1, h2⟩ := ih ((db.Has x.ID).2.Put x.ID x.Fields.Summary).1 (acc ++ [x])
        refine ⟨DbOp.has x.ID :: DbOp.put x.ID x.Fields.Summary :: ops, ?_, ?_⟩
        · rw [h1]; simp [Bitcask.Has, Bitcask.Put, hp]
        · intro k v hkv
          rcases List.mem_cons.mp hkv with h3 | h3
          · cases h3
          rcases List.mem_cons.mp h3 with h4 | h4
          · cases h4; exact hc
          · have := h2 k v h4
            rw [Bitcask.contains_Put (db.Has x.ID).2 x.ID x.Fields.Summary hp,
              Bitcask.contains_Has] at this
            cases hd : db.contains k
            · rfl
            · simp [hd] at this

theorem firstSightings_sublist (S : List Issue) :
    ∀ known : String → Bool, List.Sublist (firstSightings known S) S := by
  induction S with
  | nil => intro known; simp [firstSightings_nil]
  | cons x rest ih =>
    intro known
    rw [firstSightings_cons]
    cases known x.ID with
    | true => simpa using (ih _).cons x
    | false => simpa using (ih _).cons₂ x

theorem contains_congr (D1 D2 : Bitcask) (h : D1.entries = D2.entries) :
    D1.contains = D2.contains := by
  funext k; unfold Bitcask.contains; rw [h]

/-! ## Claims on the classification loop -/

/-- C1: when no `Put` fails, the classification loop of `checkFunc` returns
exactly the sub-sequence of the fetched sequence made of the issues whose ID is
not a key of the store and does not occur at an earlier position, in the order
of the fetched sequence. -/
theorem classify_returns_first_sightings (S : List Issue) (D : Bitcask)
    (hput : (classify S D).err = none) :
    (classify S D).newIssues = firstSightings D.contains S ∧
      List.Sublist (classify S D).newIssues S := by
  have h := classifyLoop_newIssues S D [] hput
  have h1 : (classify S D).newIssues = firstSightings D.contains S := by
    unfold classify
    rw [h]
    simp
  exact ⟨h1, by rw [h1]; exact firstSightings_sublist S _⟩

/-- Witness of C1: on the sample sequence and store the known issue 10002 and
the second occurrence of 10001 are skipped. -/
theorem classify_returns_first_sightings_witness :
    (classify sampleIssues sampleStore).err = none ∧
      firstSightings sampleStore.contains sampleIssues =
        [⟨"10001", "A-1", ⟨"fix bug"⟩⟩, ⟨"10003", "A-3", ⟨"write docs"⟩⟩] ∧
      (classify sampleIssues sampleStore).newIssues =
        firstSightings sampleStore.contains sampleIssues ∧
      List.Sublist (classify sampleIssues sampleStore).newIssues sampleIssues :=
  ⟨by decide, by decide, classify_returns_first_sightings sampleIssues sampleStore (by decide)⟩

/-- C2: when no `Put` fails in the first run, the first run of the loop yields
a non-empty result whenever some fetched issue has an ID that is not in the
store, and a second run on the same sequence against the resulting records
yields an empty result (and writes nothing). -/
theorem classify_twice (S : List Issue) (D : Bitcask)
    (hput : (classify S D).err = none) :
    ((∃ x ∈ S, D.contains x.ID = false) → (classify S D).newIssues ≠ []) ∧
      ∀ D2 : Bitcask, D2.entries = (classify S D).db.entries →
        (classify S D2).newIssues = [] ∧ (classify S D2).err = none ∧
          (classify S D2).db.entries = D2.entries := by
  constructor
  · intro h hnil
    have := classifyLoop_length_lt S D [] h
    unfold classify at hnil
    rw [hnil] at this
    simp at this
  · intro D2 h2
    apply classifyLoop_all_known
    intro x hx
    rw [contains_congr D2 _ h2]
    exact classifyLoop_contains_after S D [] hput x hx

/-- Witness of C2 on the sample sequence and store. -/
theorem classify_twice_witness :
    (classify sampleIssues sampleStore).err = none ∧
      (classify sampleIssues sampleStore).newIssues ≠ [] ∧
      (classify sampleIssues (classify sampleIssues sampleStore).db).newIssues = [] :=
  ⟨by decide,
    (classify_twice sampleIssues sampleStore (by decide)).1
      ⟨⟨"10001", "A-1", ⟨"fix bug"⟩⟩, by decide, by decide⟩,
    ((classify_twice sampleIssues sampleStore (by decide)).2 _ rfl).1⟩

/-- C3: when no `Put` fails, every fetched issue whose ID is not a key of the
store before the loop is known afterwards (`Has` answers true), and the value
stored under its ID is the summary of the first fetched issue carrying that
ID. -/
theorem classify_records_first_summary (S : List Issue) (D : Bitcask)
    (hput : (classify S D).err = none) (i : Issue) (hi : i ∈ S)
    (hnew : D.contains i.ID = false) :
    ((classify S D).db.Has i.ID).1 = true ∧
      ∃ first : Issue, S.find? (fun j => j.ID == i.ID) = some first ∧
        (classify S D).db.Get i.ID = some first.Fields.Summary := by
  refine ⟨classifyLoop_contains_after S D [] hput i hi, ?_⟩
  have hg : D.Get i.ID = none := by
    unfold Bitcask.contains at hnew
    unfold Bitcask.Get
    cases h : List.lookup i.ID D.entries with
    | none => rfl
    | some v => rw [h] at hnew; simp at hnew
  have h := classifyLoop_Get_new S D [] i.ID hput hg
  cases hf : S.find? (fun j => j.ID == i.ID) with
  | none =>
    have := List.find?_eq_none.mp hf i hi
    simp at this
  | some first =>
    refine ⟨first, rfl, ?_⟩
    unfold classify
    rw [h, hf]
    rfl

/-- Witness of C3: the second occurrence of ID 10001 in the sample sequence
leaves the summary of the first occurrence in the store. -/
theorem classify_records_first_summary_witness :
    (classify sampleIssues sampleStore).err = none ∧
      sampleStore.contains "10001" = false ∧
      ((classify sampleIssues sampleStore).db.Has "10001").1 = true ∧
      ∃ first : Issue, sampleIssues.find? (fun j => j.ID == "10001") = some first ∧
        (classify sampleIssues sampleStore).db.Get "10001" = some first.Fields.Summary :=
  ⟨by decide, by decide,
    classify_records_first_summary sampleIssues sampleStore (by decide)
      ⟨"10001", "A-1", ⟨"fix bug (edited)"⟩⟩ (by decide) (by decide)⟩

/-- C4: whatever the fetched sequence and the store, and whether or not a `Put`
fails, every record of the store before the loop is still there with the same
summary afterwards, every issue in the result has an ID that was not a key of
the store, and every `Put` the loop makes is on a key that was not in the
store. -/
theorem classify_preserves_records (S : List Issue) (D : Bitcask) :
    (∀ k v, D.Get k = some v → (classify S D).db.Get k = some v) ∧
      (∀ x ∈ (classify S D).newIssues, D.contains x.ID = false) ∧
      ∃ ops : List DbOp, (classify S D).db.log = D.log ++ ops ∧
        ∀ k v, DbOp.put k v ∈ ops → D.contains k = false := by
  refine ⟨fun k v h => classifyLoop_Get_preserved S D [] k v h, ?_, classifyLoop_log S D []⟩
  intro x hx
  rcases classifyLoop_mem S D [] x hx with h | ⟨_, h⟩
  · simp at h
  · exact h

/-- Witness of C4: issue 10002 is fetched with a changed summary; the stored
summary stays and the issue is not in the result. -/
theorem classify_preserves_records_witness :
    sampleStore.Get "10002" = some "old summary" ∧
      (classify sampleIssues sampleStore).db.Get "10002" = some "old summary" ∧
      ∀ x ∈ (classify sampleIssues sampleStore).newIssues, x.ID ≠ "10002" :=
  ⟨by decide,
    (classify_preserves_records sampleIssues sampleStore).1 "10002" "old summary" (by decide),
    fun x hx hid => by
      have h := (classify_preserves_records sampleIssues sampleStore).2.1 x hx
      rw [hid] at h
      exact absurd h (by decide)⟩

/-! ## The default template -/

theorem parse_outputTemplate : GoTemplate.parse outputTemplate = Except.ok defaultTmpl := by
  rfl

theorem foldl_append_eq (l : List String) :
    ∀ a : String, List.foldl (fun r s => r ++ s) a l = a ++ List.foldl (fun r s => r ++ s) "" l := by
  induction l with
  | nil => intro a; simp
  | cons x xs ih =>
    intro a
    rw [List.foldl_cons, List.foldl_cons, ih (a ++ x), ih ("" ++ x)]
    simp [String.append_assoc]

theorem join_cons (x : String) (xs : List String) :
    String.join (x :: xs) = x ++ String.join xs := by
  unfold String.join
  rw [List.foldl_cons, foldl_append_eq]
  simp

theorem execRange_lines (body : GoTemplate.Value → String → String × Option Error)
    (line : Issue → String)
    (hbody : ∀ x o, body (GoTemplate.Value.issue x) o = (o ++ line x, none)) (l : List Issue) :
    ∀ out : String,
      GoTemplate.execRange body l out = (out ++ String.join (l.map line), none) := by
  induction l with
  | nil => intro out; simp [GoTemplate.execRange, String.join]
  | cons x xs ih =>
    intro out
    rw [GoTemplate.execRange, hbody]
    simp only [List.map_cons, join_cons]
    rw [ih, String.append_assoc]

theorem exec_defaultLine (x : Issue) (o : String) :
    GoTemplate.exec defaultLine (GoTemplate.Value.issue x) o =
      (o ++ (x.Key ++ " " ++ x.Fields.Summary ++ "\n"), none) := by
  simp [defaultLine, GoTemplate.exec, GoTemplate.eval, GoTemplate.getField,
    GoTemplate.printValue, Except.bind, String.append_assoc]

theorem exec_defaultTmpl (issues : List Issue) :
    GoTemplate.exec defaultTmpl (GoTemplate.Value.issues issues) "" =
      (if issues = [] then "" else
        "\nFound " ++ Nat.repr issues.length ++ " new tickets\n" ++
          String.join (issues.map fun i => i.Key ++ " " ++ i.Fields.Summary ++ "\n") ++ "\n",
        none) := by
  cases issues with
  | nil => simp [defaultTmpl, GoTemplate.exec, GoTemplate.eval, GoTemplate.truth]
  | cons x xs =>
    have hr := execRange_lines (fun v o => GoTemplate.exec defaultLine v o)
      (fun i => i.Key ++ " " ++ i.Fields.Summary ++ "\n") exec_defaultLine (x :: xs)
    unfold defaultTmpl
    rw [GoTemplate.exec]
    simp only [GoTemplate.eval, GoTemplate.truth]
    simp only [bne_iff_ne, ne_eq, List.length_cons, Nat.add_one_ne_zero, not_false_eq_true,
      decide_True, ite_true]
    rw [GoTemplate.exec, GoTemplate.exec]
    simp only [GoTemplate.eval, Except.bind, GoTemplate.printValue]
    rw [GoTemplate.exec, GoTemplate.exec]
    simp only [GoTemplate.eval, List.isEmpty_cons, Bool.false_eq_true, ite_false]
    rw [hr]
    simp only [GoTemplate.exec]
    simp [String.append_assoc]

theorem Parse_outputTemplate :
    GoTemplate.Parse outputTemplate =
      Except.ok (fun issues => GoTemplate.exec defaultTmpl (GoTemplate.Value.issues issues) "") := by
  unfold GoTemplate.Parse
  rw [parse_outputTemplate]
  rfl

theorem render_outputTemplate (issues : List Issue) :
    render outputTemplate issues =
      (if issues = [] then "" else
        "\nFound " ++ Nat.repr issues.length ++ " new tickets\n" ++
          String.join (issues.map fun i => i.Key ++ " " ++ i.Fields.Summary ++ "\n") ++ "\n",
        none) := by
  unfold render
  rw [Parse_outputTemplate]
  exact exec_defaultTmpl issues

/-- C5 (as amended): with the default template nothing is written for the
empty sequence; for a non-empty sequence the text written is an empty line, the
line `Found n new tickets` with `n` the number of new issues, one line per new
issue in sequence order made of the issue's `Key`, a space and its summary, and
an empty line; no error is returned.  The identifier printed is the field
`Key`, not the field `ID` under which the issue is recorded in the store. -/
theorem default_template_report :
    render outputTemplate [] = ("", none) ∧
      ∀ issues : List Issue, issues ≠ [] →
        render outputTemplate issues =
          ("\nFound " ++ Nat.repr issues.length ++ " new tickets\n" ++
            String.join (issues.map fun i => i.Key ++ " " ++ i.Fields.Summary ++ "\n") ++ "\n",
           none) := by
  constructor
  · rw [render_outputTemplate]; rfl
  · intro issues h
    rw [render_outputTemplate, if_neg h]

/-- Witness of C5: the two issues of the specification's example. -/
theorem default_template_report_witness :
    render outputTemplate
        [⟨"10001", "A-1", ⟨"fix bug"⟩⟩, ⟨"10002", "A-2", ⟨"add test"⟩⟩] =
      ("\nFound 2 new tickets\nA-1 fix bug\nA-2 add test\n\n", none) := by
  rw [default_template_report.2 _ (by decide)]
  decide

/-- C5 (as stated) fails: for an issue with ID 10001 and key A-1 the report
holds the line `A-1 fix bug`, and the text `10001 fix bug` (the dedup key, a
space and the summary) occurs nowhere in it. -/
theorem default_template_prints_key_not_id :
    render outputTemplate [⟨"10001", "A-1", ⟨"fix bug"⟩⟩] =
        ("\nFound 1 new tickets\nA-1 fix bug\n\n", none) ∧
      ¬ ("10001 fix bug".data <:+:
          (render outputTemplate [⟨"10001", "A-1", ⟨"fix bug"⟩⟩]).1.data) := by
  have h : render outputTemplate [⟨"10001", "A-1", ⟨"fix bug"⟩⟩] =
      ("\nFound 1 new tickets\nA-1 fix bug\n\n", none) := by
    rw [render_outputTemplate]
    decide
  refine ⟨h, ?_⟩
  rw [h]
  decide

/-! ## The fetch -/

theorem feedPage_collect (page : List Issue) :
    ∀ issues : List Issue, feedPage (collect none) page issues = (issues ++ page, none) := by
  induction page with
  | nil => intro issues; simp [feedPage]
  | cons x rest ih =>
    intro issues
    rw [feedPage]
    simp only [collect]
    rw [ih]
    simp

theorem searchPagesLoop_collect_ok (okPages : List (List Issue)) :
    ∀ issues : List Issue,
      searchPagesLoop (collect none) (okPages.map Except.ok) issues =
        (issues ++ okPages.flatten, none) := by
  induction okPages with
  | nil => intro issues; simp [searchPagesLoop]
  | cons page more ih =>
    intro issues
    rw [List.map_cons, searchPagesLoop, feedPage_collect]
    simp only
    rw [ih]
    simp

theorem searchPagesLoop_collect_failed (okPages : List (List Issue)) (err : Error)
    (rest : List (Except Error (List Issue))) :
    ∀ issues : List Issue,
      searchPagesLoop (collect none) (okPages.map Except.ok ++ Except.error err :: rest) issues =
        (issues ++ okPages.flatten, some err) := by
  induction okPages with
  | nil => intro issues; simp [searchPagesLoop]
  | cons page more ih =>
    intro issues
    rw [List.map_cons, List.cons_append, searchPagesLoop, feedPage_collect]
    simp only
    rw [ih]
    simp

/-! ## The exits of `checkFunc` -/

theorem checkFunc_open_failed (config : HandlerConfig) (w : World) (err : Error)
    (hopen : w.bitcaskOpen config.knownIssues = Except.error err) :
    checkFunc config w = ⟨2, some err, "", none, []⟩ := by
  unfold checkFunc
  rw [hopen]

theorem checkFunc_client_failed (config : HandlerConfig) (w : World) (db : Bitcask)
    (err : Error) (hopen : w.bitcaskOpen config.knownIssues = Except.ok db)
    (hclient : w.jiraNewClient config.jiraUser config.jiraPassword config.jiraUrl =
      Except.error err) :
    checkFunc config w = ⟨2, some err, "", some db.Close, []⟩ := by
  unfold checkFunc
  rw [hopen]
  simp only
  rw [hclient]

theorem checkFunc_fetch_failed (config : HandlerConfig) (w : World) (db : Bitcask)
    (client : Client) (fetched : List Issue) (err : Error)
    (hopen : w.bitcaskOpen config.knownIssues = Except.ok db)
    (hclient : w.jiraNewClient config.jiraUser config.jiraPassword config.jiraUrl =
      Except.ok client)
    (hfetch : client.SearchPages config.jiraQuery (collect none) [] =
      (fetched, some err)) :
    checkFunc config w = ⟨2, some err, "", some db.Close, []⟩ := by
  unfold checkFunc
  rw [hopen]
  simp only
  rw [hclient]
  simp only
  rw [hfetch]

theorem checkFunc_put_failed (config : HandlerConfig) (w : World) (db : Bitcask)
    (client : Client) (issues : List Issue) (err : Error)
    (hopen : w.bitcaskOpen config.knownIssues = Except.ok db)
    (hclient : w.jiraNewClient config.jiraUser config.jiraPassword config.jiraUrl =
      Except.ok client)
    (hfetch : client.SearchPages config.jiraQuery (collect none) [] = (issues, none))
    (hput : (classify issues db).err = some err) :
    checkFunc config w =
      ⟨2, some err, "", some (classify issues db).db.Close, (classify issues db).newIssues⟩ := by
  unfold checkFunc
  rw [hopen]
  simp only
  rw [hclient]
  simp only
  rw [hfetch]
  simp only
  rw [hput]

theorem checkFunc_parse_failed (config : HandlerConfig) (w : World) (db : Bitcask)
    (client : Client) (issues : List Issue) (err : Error)
    (hopen : w.bitcaskOpen config.knownIssues = Except.ok db)
    (hclient : w.jiraNewClient config.jiraUser config.jiraPassword config.jiraUrl =
      Except.ok client)
    (hfetch : client.SearchPages config.jiraQuery (collect none) [] = (issues, none))
    (hput : (classify issues db).err = none)
    (hparse : w.templateParse config.outputTemplate = Except.error err) :
    checkFunc config w =
      ⟨2, some err, "", some (classify issues db).db.Close, (classify issues db).newIssues⟩ := by
  unfold checkFunc
  rw [hopen]
  simp only
  rw [hclient]
  simp only
  rw [hfetch]
  simp only
  rw [hput]
  simp only
  rw [hparse]

theorem checkFunc_execute_failed (config : HandlerConfig) (w : World) (db : Bitcask)
    (client : Client) (issues : List Issue) (tmpl : Template) (written : String) (err : Error)
    (hopen : w.bitcaskOpen config.knownIssues = Except.ok db)
    (hclient : w.jiraNewClient config.jiraUser config.jiraPassword config.jiraUrl =
      Except.ok client)
    (hfetch : client.SearchPages config.jiraQuery (collect none) [] = (issues, none))
    (hput : (classify issues db).err = none)
    (hparse : w.templateParse config.outputTemplate = Except.ok tmpl)
    (hexec : tmpl (classify issues db).newIssues = (written, some err)) :
    checkFunc config w =
      ⟨2, some err, written, some (classify issues db).db.Close,
        (classify issues db).newIssues⟩ := by
  unfold checkFunc
  rw [hopen]
  simp only
  rw [hclient]
  simp only
  rw [hfetch]
  simp only
  rw [hput]
  simp only
  rw [hparse]
  simp only
  rw [hexec]

theorem checkFunc_succeeded (config : HandlerConfig) (w : World) (db : Bitcask)
    (client : Client) (issues : List Issue) (tmpl : Template) (written : String)
    (hopen : w.bitcaskOpen config.knownIssues = Except.ok db)
    (hclient : w.jiraNewClient config.jiraUser config.jiraPassword config.jiraUrl =
      Except.ok client)
    (hfetch : client.SearchPages config.jiraQuery (collect none) [] = (issues, none))
    (hput : (classify issues db).err = none)
    (hparse : w.templateParse config.outputTemplate = Except.ok tmpl)
    (hexec : tmpl (classify issues db).newIssues = (written, none)) :
    checkFunc config w =
      ⟨0, none, written, some (classify issues db).db.Close,
        (classify issues db).newIssues⟩ := by
  unfold checkFunc
  rw [hopen]
  simp only
  rw [hclient]
  simp only
  rw [hfetch]
  simp only
  rw [hput]
  simp only
  rw [hparse]
  simp only
  rw [hexec]

/-! ## Claims on `checkFunc` -/

/-- C6: if, with the store open, the creation of the client fails, or the
search fails on some page after any number of pages delivered, `checkFunc`
returns status 2 with that error, nothing is written to standard output, no
issue is classified, and the only call made on the store is the deferred
`Close`: no `Has`, no `Put`, and the records are those found at `Open`. -/
theorem fetch_failure_leaves_store (config : HandlerConfig) (w : World) (db : Bitcask)
    (err : Error) (hopen : w.bitcaskOpen config.knownIssues = Except.ok db)
    (hfetch :
      w.jiraNewClient config.jiraUser config.jiraPassword config.jiraUrl = Except.error err ∨
      ∃ (client : Client) (okPages : List (List Issue))
          (rest : List (Except Error (List Issue))),
        w.jiraNewClient config.jiraUser config.jiraPassword config.jiraUrl = Except.ok client ∧
        client.pages config.jiraQuery = okPages.map Except.ok ++ Except.error err :: rest) :
    (checkFunc config w).status = 2 ∧ (checkFunc config w).err = some err ∧
      (checkFunc config w).stdout = "" ∧ (checkFunc config w).newIssues = [] ∧
      ∃ after : Bitcask, (checkFunc config w).db = some after ∧
        after.entries = db.entries ∧ after.log = db.log ++ [DbOp.close] := by
  have h : checkFunc config w = ⟨2, some err, "", some db.Close, []⟩ := by
    rcases hfetch with hclient | ⟨client, okPages, rest, hclient, hpages⟩
    · exact checkFunc_client_failed config w db err hopen hclient
    · apply checkFunc_fetch_failed config w db client ([] ++ okPages.flatten) err hopen hclient
      unfold Client.SearchPages
      rw [hpages]
      exact searchPagesLoop_collect_failed okPages err rest []
  rw [h]
  exact ⟨rfl, rfl, rfl, rfl, db.Close, rfl, rfl, rfl⟩

/-- Witness of C6: the second of three page requests fails. -/
theorem fetch_failure_leaves_store_witness :
    (checkFunc sampleConfig (worldWith sampleStore failingPages)).status = 2 ∧
      (checkFunc sampleConfig (worldWith sampleStore failingPages)).err =
        some "page 2: connection reset" ∧
      (checkFunc sampleConfig (worldWith sampleStore failingPages)).stdout = "" ∧
      (checkFunc sampleConfig (worldWith sampleStore failingPages)).newIssues = [] ∧
      ∃ after : Bitcask,
        (checkFunc sampleConfig (worldWith sampleStore failingPages)).db = some after ∧
        after.entries = sampleStore.entries ∧ after.log = sampleStore.log ++ [DbOp.close] :=
  fetch_failure_leaves_store sampleConfig (worldWith sampleStore failingPages) sampleStore
    "page 2: connection reset" rfl
    (Or.inr ⟨⟨fun _ => failingPages⟩, [sampleIssues.take 2], [Except.ok (sampleIssues.drop 2)],
      rfl, rfl⟩)

/-- C7 (as stated) fails: with a template whose execution fails inside the
`range`, the step that fails is the execution of the template, `checkFunc`
returns status 2 with the error, and the header of the report has already been
written to standard output. -/
theorem execute_failure_leaves_partial_report :
    ExecuteFails brokenConfig (worldWith emptyStore samplePages) "Found 3 new tickets\n"
        "can't evaluate field Summary in type string" ∧
      (checkFunc brokenConfig (worldWith emptyStore samplePages)).status = 2 ∧
      (checkFunc brokenConfig (worldWith emptyStore samplePages)).err =
        some "can't evaluate field Summary in type string" ∧
      (checkFunc brokenConfig (worldWith emptyStore samplePages)).stdout =
        "Found 3 new tickets\n" ∧
      (checkFunc brokenConfig (worldWith emptyStore samplePages)).stdout ≠ "" := by
  refine ⟨⟨emptyStore, ⟨fun _ => samplePages⟩, sampleIssues, _, rfl, rfl, rfl, rfl, rfl, rfl⟩,
    rfl, rfl, rfl, ?_⟩
  decide

/-- C7 (as amended): whenever some step of `checkFunc` fails it returns status
2 together with a non-nil error; nothing has been written to standard output
unless the failing step is the execution of the template, in which case
standard output holds exactly the text `Execute` wrote before it failed. -/
theorem failure_status_and_output (config : HandlerConfig) (w : World)
    (hfail : ¬ AllStepsSucceed config w) :
    (checkFunc config w).status = 2 ∧
      ∃ err : Error, (checkFunc config w).err = some err ∧
        ((∃ written, ExecuteFails config w written err ∧
            (checkFunc config w).stdout = written) ∨
          ((∀ written err2, ¬ ExecuteFails config w written err2) ∧
            (checkFunc config w).stdout = "")) := by
  cases hopen : w.bitcaskOpen config.knownIssues with
  | error err =>
    rw [checkFunc_open_failed config w err hopen]
    refine ⟨rfl, err, rfl, Or.inr ⟨?_, rfl⟩⟩
    rintro written err2 ⟨db, _, _, _, h1, _⟩
    rw [hopen] at h1
    cases h1
  | ok db =>
    cases hclient : w.jiraNewClient config.jiraUser config.jiraPassword config.jiraUrl with
    | error err =>
      rw [checkFunc_client_failed config w db err hopen hclient]
      refine ⟨rfl, err, rfl, Or.inr ⟨?_, rfl⟩⟩
      rintro written err2 ⟨_, client, _, _, _, h2, _⟩
      rw [hclient] at h2
      cases h2
    | ok client =>
      rcases hfetch : client.SearchPages config.jiraQuery (collect none) [] with ⟨issues, ferr⟩
      cases ferr with
      | some err =>
        rw [checkFunc_fetch_failed config w db client issues err hopen hclient hfetch]
        refine ⟨rfl, err, rfl, Or.inr ⟨?_, rfl⟩⟩
        rintro written err2 ⟨_, client2, issues2, _, _, h2, h3, _⟩
        rw [hclient] at h2
        cases h2
        rw [hfetch] at h3
        cases h3
      | none =>
        cases hput : (classify issues db).err with
        | some err =>
          rw [checkFunc_put_failed config w db client issues err hopen hclient hfetch hput]
          refine ⟨rfl, err, rfl, Or.inr ⟨?_, rfl⟩⟩
          rintro written err2 ⟨db2, client2, issues2, _, h1, h2, h3, h4, _⟩
          rw [hopen] at h1
          cases h1
          rw [hclient] at h2
          cases h2
          rw [hfetch] at h3
          cases h3
          rw [hput] at h4
          cases h4
        | none =>
          cases hparse : w.templateParse config.outputTemplate with
          | error err =>
            rw [checkFunc_parse_failed config w db client issues err hopen hclient hfetch hput
              hparse]
            refine ⟨rfl, err, rfl, Or.inr ⟨?_, rfl⟩⟩
            rintro written err2 ⟨_, _, _, tmpl2, _, _, _, _, h5, _⟩
            rw [hparse] at h5
            cases h5
          | ok tmpl =>
            rcases hexec : tmpl (classify issues db).newIssues with ⟨written, xerr⟩
            cases xerr with
            | none =>
              exact absurd
                ⟨db, client, issues, tmpl, written, hopen, hclient, hfetch, hput, hparse, hexec⟩
                hfail
            | some err =>
              rw [checkFunc_execute_failed config w db client issues tmpl written err hopen
                hclient hfetch hput hparse hexec]
              exact ⟨rfl, err, rfl, Or.inl ⟨written,
                ⟨db, client, issues, tmpl, hopen, hclient, hfetch, hput, hparse, hexec⟩, rfl⟩⟩

/-- Witness of C7 (as amended): the second of three page requests fails. -/
theorem failure_status_and_output_witness :
    ¬ AllStepsSucceed sampleConfig (worldWith sampleStore failingPages) ∧
      (checkFunc sampleConfig (worldWith sampleStore failingPages)).status = 2 ∧
      ∃ err : Error,
        (checkFunc sampleConfig (worldWith sampleStore failingPages)).err = some err ∧
        ((∃ written,
            ExecuteFails sampleConfig (worldWith sampleStore failingPages) written err ∧
            (checkFunc sampleConfig (worldWith sampleStore failingPages)).stdout = written) ∨
          ((∀ written err2,
              ¬ ExecuteFails sampleConfig (worldWith sampleStore failingPages) written err2) ∧
            (checkFunc sampleConfig (worldWith sampleStore failingPages)).stdout = "")) := by
  have hfail : ¬ AllStepsSucceed sampleConfig (worldWith sampleStore failingPages) := by
    rintro ⟨_, client, issues, _, _, _, h2, h3, _⟩
    cases h2
    cases h3
  exact ⟨hfail, failure_status_and_output sampleConfig (worldWith sampleStore failingPages) hfail⟩

theorem checkFunc_after_fetch (config : HandlerConfig) (w : World) (db : Bitcask)
    (client : Client) (issues : List Issue)
    (hopen : w.bitcaskOpen config.knownIssues = Except.ok db)
    (hclient : w.jiraNewClient config.jiraUser config.jiraPassword config.jiraUrl =
      Except.ok client)
    (hfetch : client.SearchPages config.jiraQuery (collect none) [] = (issues, none)) :
    (checkFunc config w).newIssues = (classify issues db).newIssues ∧
      (checkFunc config w).db = some (classify issues db).db.Close := by
  cases hput : (classify issues db).err with
  | some err =>
    rw [checkFunc_put_failed config w db client issues err hopen hclient hfetch hput]
    exact ⟨rfl, rfl⟩
  | none =>
    cases hparse : w.templateParse config.outputTemplate with
    | error err =>
      rw [checkFunc_parse_failed config w db client issues err hopen hclient hfetch hput hparse]
      exact ⟨rfl, rfl⟩
    | ok tmpl =>
      rcases hexec : tmpl (classify issues db).newIssues with ⟨written, xerr⟩
      cases xerr with
      | none =>
        rw [checkFunc_succeeded config w db client issues tmpl written hopen hclient hfetch
          hput hparse hexec]
        exact ⟨rfl, rfl⟩
      | some err =>
        rw [checkFunc_execute_failed config w db client issues tmpl written err hopen hclient
          hfetch hput hparse hexec]
        exact ⟨rfl, rfl⟩

/-- C9: if the fetch and every `Put` succeed but the template fails to parse
or to execute, `checkFunc` returns status 2 with that error while the store
holds the ID of every new issue; a following invocation on the resulting
records with the same fetched sequence has an empty sequence of new issues,
and with a template that parses and executes it succeeds with the report of
the empty sequence. -/
theorem template_failure_after_store_update (config : HandlerConfig) (w : World)
    (db : Bitcask) (client : Client) (issues : List Issue) (err : Error)
    (hopen : w.bitcaskOpen config.knownIssues = Except.ok db)
    (hclient : w.jiraNewClient config.jiraUser config.jiraPassword config.jiraUrl =
      Except.ok client)
    (hfetch : client.SearchPages config.jiraQuery (collect none) [] = (issues, none))
    (hput : (classify issues db).err = none)
    (htmpl : w.templateParse config.outputTemplate = Except.error err ∨
      ∃ (tmpl : Template) (written : String),
        w.templateParse config.outputTemplate = Except.ok tmpl ∧
        tmpl (classify issues db).newIssues = (written, some err)) :
    (checkFunc config w).status = 2 ∧ (checkFunc config w).err = some err ∧
      ∃ after : Bitcask, (checkFunc config w).db = some after ∧
        (∀ i ∈ (checkFunc config w).newIssues, after.contains i.ID = true) ∧
        ∀ (config2 : HandlerConfig) (w2 : World) (db2 : Bitcask) (client2 : Client),
          w2.bitcaskOpen config2.knownIssues = Except.ok db2 →
          db2.entries = after.entries →
          w2.jiraNewClient config2.jiraUser config2.jiraPassword config2.jiraUrl =
            Except.ok client2 →
          client2.SearchPages config2.jiraQuery (collect none) [] = (issues, none) →
          (checkFunc config2 w2).newIssues = [] ∧
            ∀ (tmpl2 : Template) (written2 : String),
              w2.templateParse config2.outputTemplate = Except.ok tmpl2 →
              tmpl2 [] = (written2, none) →
              (checkFunc config2 w2).status = 0 ∧ (checkFunc config2 w2).stdout = written2 := by
  have hout : checkFunc config w =
      ⟨2, some err, (checkFunc config w).stdout, some (classify issues db).db.Close,
        (classify issues db).newIssues⟩ := by
    rcases htmpl with hparse | ⟨tmpl, written, hparse, hexec⟩
    · rw [checkFunc_parse_failed config w db client issues err hopen hclient hfetch hput hparse]
    · rw [checkFunc_execute_failed config w db client issues tmpl written err hopen hclient
        hfetch hput hparse hexec]
  have hknown : ∀ i ∈ issues, (classify issues db).db.Close.contains i.ID = true :=
    fun i hi => classifyLoop_contains_after issues db [] hput i hi
  refine ⟨by rw [hout], by rw [hout], (classify issues db).db.Close, by rw [hout], ?_, ?_⟩
  · intro i hi
    rw [hout] at hi
    rcases classifyLoop_mem issues db [] i hi with h | ⟨h, _⟩
    · simp at h
    · exact hknown i h
  · intro config2 w2 db2 client2 hopen2 hent hclient2 hfetch2
    have hall := classifyLoop_all_known issues db2 []
      (fun i hi => by rw [contains_congr db2 _ hent]; exact hknown i hi)
    have hnew : (classify issues db2).newIssues = [] := hall.1
    have hput2 : (classify issues db2).err = none := hall.2.1
    refine ⟨by rw [(checkFunc_after_fetch config2 w2 db2 client2 issues hopen2 hclient2
      hfetch2).1, hnew], ?_⟩
    intro tmpl2 written2 hparse2 hexec2
    rw [checkFunc_succeeded config2 w2 db2 client2 issues tmpl2 written2 hopen2 hclient2
      hfetch2 hput2 hparse2 (by rw [hnew]; exact hexec2)]
    exact ⟨rfl, rfl⟩

/-- Witness of C9: the template of `brokenConfig` fails while it is executed
on the three new issues of the sample pages. -/
theorem template_failure_after_store_update_witness :
    (checkFunc brokenConfig (worldWith emptyStore samplePages)).status = 2 ∧
      (checkFunc brokenConfig (worldWith emptyStore samplePages)).err =
        some "can't evaluate field Summary in type string" ∧
      ∃ after : Bitcask,
        (checkFunc brokenConfig (worldWith emptyStore samplePages)).db = some after ∧
        (∀ i ∈ (checkFunc brokenConfig (worldWith emptyStore samplePages)).newIssues,
          after.contains i.ID = true) ∧
        ∀ (config2 : HandlerConfig) (w2 : World) (db2 : Bitcask) (client2 : Client),
          w2.bitcaskOpen config2.knownIssues = Except.ok db2 →
          db2.entries = after.entries →
          w2.jiraNewClient config2.jiraUser config2.jiraPassword config2.jiraUrl =
            Except.ok client2 →
          client2.SearchPages config2.jiraQuery (collect none) [] = (sampleIssues, none) →
          (checkFunc config2 w2).newIssues = [] ∧
            ∀ (tmpl2 : Template) (written2 : String),
              w2.templateParse config2.outputTemplate = Except.ok tmpl2 →
              tmpl2 [] = (written2, none) →
              (checkFunc config2 w2).status = 0 ∧ (checkFunc config2 w2).stdout = written2 :=
  template_failure_after_store_update brokenConfig (worldWith emptyStore samplePages)
    emptyStore ⟨fun _ => samplePages⟩ sampleIssues
    "can't evaluate field Summary in type string" rfl rfl rfl rfl
    (Or.inr ⟨_, "Found 3 new tickets\n", rfl, rfl⟩)

/-- C10: whenever no step of `checkFunc` fails it returns status 0 with a nil
error, whatever the fetched sequence and the store, and so whether or not there
are new issues. -/
theorem success_status (config : HandlerConfig) (w : World)
    (hok : AllStepsSucceed config w) :
    (checkFunc config w).status = 0 ∧ (checkFunc config w).err = none := by
  obtain ⟨db, client, issues, tmpl, written, hopen, hclient, hfetch, hput, hparse, hexec⟩ := hok
  rw [checkFunc_succeeded config w db client issues tmpl written hopen hclient hfetch hput
    hparse hexec]
  exact ⟨rfl, rfl⟩

/-- Witness of C10: one invocation that finds two new issues and one, on the
store holding every fetched ID, that finds none; both return status 0. -/
theorem success_status_witness :
    ((checkFunc sampleConfig (worldWith sampleStore samplePages)).newIssues.length = 2 ∧
      (checkFunc sampleConfig (worldWith sampleStore samplePages)).status = 0 ∧
      (checkFunc sampleConfig (worldWith sampleStore samplePages)).err = none) ∧
    ((checkFunc sampleConfig
        (worldWith (classify sampleIssues sampleStore).db samplePages)).newIssues = [] ∧
      (checkFunc sampleConfig
        (worldWith (classify sampleIssues sampleStore).db samplePages)).status = 0 ∧
      (checkFunc sampleConfig
        (worldWith (classify sampleIssues sampleStore).db samplePages)).err = none) :=
  ⟨⟨rfl, success_status sampleConfig (worldWith sampleStore samplePages)
      ⟨sampleStore, ⟨fun _ => samplePages⟩, sampleIssues, _, _, rfl, rfl, rfl, rfl, rfl, rfl⟩⟩,
    ⟨rfl, success_status sampleConfig
      (worldWith (classify sampleIssues sampleStore).db samplePages)
      ⟨(classify sampleIssues sampleStore).db, ⟨fun _ => samplePages⟩, sampleIssues, _, _,
        rfl, rfl, rfl, rfl, rfl, rfl⟩⟩⟩

/-! ## Claims on `checkArgs` -/

theorem utf8ByteSize_eq_zero (s : String) : (s.utf8ByteSize == 0) = true ↔ s = "" := by
  obtain ⟨cs⟩ := s
  cases cs with
  | nil => simp [String.utf8ByteSize, String.utf8ByteSize.go]
  | cons c rest =>
    have hpos := Char.utf8Size_pos c
    have hne : (⟨c :: rest⟩ : String) ≠ "" := by
      intro h
      have := congrArg String.data h
      simp at this
    simp only [String.utf8ByteSize, String.utf8ByteSize.go, beq_iff_eq]
    constructor
    · intro h; omega
    · intro h; exact absurd h hne

theorem getenv_override (configured envValue : String) :
    (if (envValue != "") = true then envValue else configured) = effective configured envValue := by
  unfold effective
  by_cases h : envValue = ""
  · simp [h]
  · simp [h]

theorem checkArgs_eq (config : HandlerConfig) (getenv : String → String) :
    checkArgs config getenv =
      ({ config with
          jiraUrl := effective config.jiraUrl (getenv "JIRA_URL")
          jiraUser := effective config.jiraUser (getenv "JIRA_USER")
          jiraPassword := effective config.jiraPassword (getenv "JIRA_PASSWORD") },
        if effective config.jiraUrl (getenv "JIRA_URL") = "" then
          (3, some "--jira-url or JIRA_URL environment variable is required")
        else if effective config.jiraUser (getenv "JIRA_USER") = "" then
          (3, some "--jira-user or JIRA_USER environment variable is required")
        else if effective config.jiraPassword (getenv "JIRA_PASSWORD") = "" then
          (3, some "--jira-password or JIRA_PASSWORD environment variable is required")
        else (0, none)) := by
  obtain ⟨url, user, password, query, template, path⟩ := config
  have e1 := utf8ByteSize_eq_zero (effective url (getenv "JIRA_URL"))
  have e2 := utf8ByteSize_eq_zero (effective user (getenv "JIRA_USER"))
  have e3 := utf8ByteSize_eq_zero (effective password (getenv "JIRA_PASSWORD"))
  have b : ∀ v : String, (v != "") = true ↔ ¬ v = "" := fun v => by simp
  unfold checkArgs effective
  by_cases g1 : getenv "JIRA_URL" = "" <;> by_cases g2 : getenv "JIRA_USER" = "" <;>
    by_cases g3 : getenv "JIRA_PASSWORD" = "" <;>
    simp only [effective, b, g1, g2, g3, not_true_eq_false, not_false_eq_true, if_true,
      if_false] at e1 e2 e3 ⊢ <;>
    simp only [e1, e2, e3] <;>
    split_ifs <;> first | rfl | contradiction

/-- C8: `checkArgs` replaces the configured URL, user and password by the
non-empty values of `JIRA_URL`, `JIRA_USER` and `JIRA_PASSWORD`; it returns
status 3 with a non-nil error exactly when one of the three is then empty, the
error naming the first empty one in the order URL, user, password, and
`(0, nil)` otherwise.  Its result is a function of the configuration and the
environment alone. -/
theorem checkArgs_result (config : HandlerConfig) (getenv : String → String) :
    (checkArgs config getenv).1 =
        { config with
          jiraUrl := effective config.jiraUrl (getenv "JIRA_URL")
          jiraUser := effective config.jiraUser (getenv "JIRA_USER")
          jiraPassword := effective config.jiraPassword (getenv "JIRA_PASSWORD") } ∧
      (((checkArgs config getenv).2.1 = 3 ∧ (checkArgs config getenv).2.2 ≠ none) ↔
        (effective config.jiraUrl (getenv "JIRA_URL") = "" ∨
          effective config.jiraUser (getenv "JIRA_USER") = "" ∨
          effective config.jiraPassword (getenv "JIRA_PASSWORD") = "")) ∧
      (¬ (effective config.jiraUrl (getenv "JIRA_URL") = "" ∨
          effective config.jiraUser (getenv "JIRA_USER") = "" ∨
          effective config.jiraPassword (getenv "JIRA_PASSWORD") = "") →
        (checkArgs config getenv).2 = (0, none)) ∧
      (effective config.jiraUrl (getenv "JIRA_URL") = "" →
        (checkArgs config getenv).2 =
          (3, some "--jira-url or JIRA_URL environment variable is required")) ∧
      (effective config.jiraUrl (getenv "JIRA_URL") ≠ "" →
        effective config.jiraUser (getenv "JIRA_USER") = "" →
        (checkArgs config getenv).2 =
          (3, some "--jira-user or JIRA_USER environment variable is required")) ∧
      (effective config.jiraUrl (getenv "JIRA_URL") ≠ "" →
        effective config.jiraUser (getenv "JIRA_USER") ≠ "" →
        effective config.jiraPassword (getenv "JIRA_PASSWORD") = "" →
        (checkArgs config getenv).2 =
          (3, some "--jira-password or JIRA_PASSWORD environment variable is required")) := by
  rw [checkArgs_eq]
  by_cases c1 : effective config.jiraUrl (getenv "JIRA_URL") = "" <;>
    by_cases c2 : effective config.jiraUser (getenv "JIRA_USER") = "" <;>
    by_cases c3 : effective config.jiraPassword (getenv "JIRA_PASSWORD") = "" <;>
    simp [c1, c2, c3]

/-- Witness of C8: the URL comes from the environment, the user is configured
and the password is missing, so the error names the password. -/
theorem checkArgs_result_witness :
    effective "" (urlOnlyEnv "JIRA_URL") ≠ "" ∧ effective "probe" (urlOnlyEnv "JIRA_USER") ≠ "" ∧
      effective "" (urlOnlyEnv "JIRA_PASSWORD") = "" ∧
      (checkArgs ⟨"", "probe", "", "project = A", outputTemplate, knownIssues⟩ urlOnlyEnv).2 =
        (3, some "--jira-password or JIRA_PASSWORD environment variable is required") :=
  ⟨by decide, by decide, by decide,
    (checkArgs_result ⟨"", "probe", "", "project = A", outputTemplate, knownIssues⟩
      urlOnlyEnv).2.2.2.2.2 (by decide) (by decide) (by decide)⟩

end SensuJiraCheck
